import Mathlib

/-!
Verification of the HelperBot command classifier and request-lifecycle
orchestration (repository `feature-bot`, file `src/api/index.js`, second
iteration: `parseCommand`, `getRequestType`, `handleHelpCommand`,
`handleStatusCommand`, `handleUpdateCommand`, `handleCreateCommand`), plus
the record matcher `findFeatureInNotion` of the earlier iteration
(`src/unnamed/part_001`).

The JavaScript is shallowly embedded: pure string manipulation becomes Lean
functions on `String` / `List Char`; each network round trip (Slack chat
call, Notion query/mutation) becomes an entry of an effect trace, with the
responses of the external services supplied as oracle inputs
(`Except JsError` results and per-attempt outcome schedules).  JavaScript
runtime exceptions (TypeError on `undefined`) are modelled with `Except`.
Case folding and whitespace are modelled at ASCII granularity, which covers
every keyword and literal the source compares against.
-/

deriving instance DecidableEq for Except

namespace FeatureBot

/-- ASCII lower-casing of one character, mirroring what
`String.prototype.toLowerCase` does on the ASCII range (the only range the
source ever compares against). -/
def jsLowerChar (c : Char) : Char :=
  if 65 ≤ c.toNat ∧ c.toNat ≤ 90 then Char.ofNat (c.toNat + 32) else c

/-- ASCII upper-casing of one character, mirroring `toUpperCase`. -/
def jsUpperChar (c : Char) : Char :=
  if 97 ≤ c.toNat ∧ c.toNat ≤ 122 then Char.ofNat (c.toNat - 32) else c

/-- `needle` is a prefix of `hay` (plain, case-sensitive). -/
def hasPrefixChars : List Char → List Char → Bool
  | [], _ => true
  | _ :: _, [] => false
  | n :: ns, c :: cs => n == c && hasPrefixChars ns cs

/-- Substring containment on character lists: JavaScript
`hay.includes(needle)` (case-sensitive). -/
def containsSub (needle : List Char) : List Char → Bool
  | [] => needle.isEmpty
  | c :: rest => hasPrefixChars needle (c :: rest) || containsSub needle rest

/-- JavaScript `hay.includes(needle)` on `String`s. -/
def strContains (hay needle : String) : Bool :=
  containsSub needle.data hay.data

/-- JavaScript `text.toLowerCase().includes(needle)` — the form every
keyword check in `parseCommand` / `getRequestType` uses. -/
def jsIncludesLower (text needle : String) : Bool :=
  containsSub needle.data (text.data.map jsLowerChar)

/-- ASCII lower-casing of a whole string (`s.toLowerCase()`). -/
def lowerStr (s : String) : String :=
  String.mk (s.data.map jsLowerChar)

/-- The characters the source's `\s` regex class matches on ASCII input. -/
def jsWS (c : Char) : Bool :=
  c == ' ' || c == '\t' || c == '\n' || c == '\r' || c == '\x0b' || c == '\x0c'

/-- JavaScript `s.trim()` on a character list. -/
def jsTrimChars (cs : List Char) : List Char :=
  ((cs.dropWhile jsWS).reverse.dropWhile jsWS).reverse

/-- Case-insensitive literal prefix stripping: if `pat` (compared through
ASCII case folding) is a prefix of `cs`, return the remainder. -/
def stripPrefixCI : List Char → List Char → Option (List Char)
  | [], cs => some cs
  | _ :: _, [] => none
  | p :: ps, c :: cs =>
    if jsLowerChar c == jsLowerChar p then stripPrefixCI ps cs else none

/-- Anchored match of the regex `/update\s+/i`: the literal `update`
(case-insensitive) followed by at least one whitespace character; the
trailing greedy `\s+` consumes the maximal whitespace run.  Returns the
remainder after the match. -/
def matchUpdateWS (cs : List Char) : Option (List Char) :=
  match stripPrefixCI "update".data cs with
  | none => none
  | some rest =>
    match rest with
    | [] => none
    | c :: _ => if jsWS c then some (rest.dropWhile jsWS) else none

/-- Anchored match of the regex `/\s+to\s+/i`.  The leading greedy `\s+`
can only succeed with the maximal whitespace run (a shorter run leaves a
whitespace character where the literal `t` is required, so backtracking
never helps), then the literal `to` (case-insensitive), then the maximal
trailing whitespace run. -/
def matchWsToWs (cs : List Char) : Option (List Char) :=
  let n := (cs.takeWhile jsWS).length
  if n = 0 then none
  else
    match stripPrefixCI "to".data (cs.drop n) with
    | none => none
    | some rest =>
      match rest with
      | [] => none
      | c :: _ => if jsWS c then some (rest.dropWhile jsWS) else none

/-- Worker for `splitMatch`: scan left to right, cutting the input at every
match of the anchored matcher `m`, exactly as `String.prototype.split` with
a group-free regex does.  `fuel` bounds the recursion; since both matchers
above consume at least one character, `fuel = input length` never runs out
and the fuel-exhaustion branch is unreachable. -/
def splitMatchAux (m : List Char → Option (List Char)) :
    Nat → List Char → List Char → List (List Char)
  | 0, rest, acc => [acc.reverse ++ rest]
  | _ + 1, [], acc => [acc.reverse]
  | fuel + 1, c :: cs, acc =>
    match m (c :: cs) with
    | some rest => acc.reverse :: splitMatchAux m fuel rest []
    | none => splitMatchAux m fuel cs (c :: acc)

/-- JavaScript `str.split(regex)` for the two regexes the classifier uses. -/
def splitMatch (m : List Char → Option (List Char)) (cs : List Char) :
    List (List Char) :=
  splitMatchAux m cs.length cs []

/-- The two request categories (`'feature'` / `'bd'`). -/
inductive RequestType : Type where
  | feature : RequestType
  | bd : RequestType
  deriving DecidableEq, Repr

/-- The string the source uses for each category key. -/
def rtName : RequestType → String
  | RequestType.feature => "feature"
  | RequestType.bd => "bd"

/-- `requestType.charAt(0).toUpperCase() + requestType.slice(1)`. -/
def capitalizeFirst (s : String) : String :=
  match s.data with
  | [] => ""
  | c :: rest => String.mk (jsUpperChar c :: rest)

/-- The `validStatuses` table of `src/api/index.js`. -/
def validStatuses : RequestType → List String
  | RequestType.feature => ["New", "In Progress", "Pending Review", "Completed", "Rejected"]
  | RequestType.bd => ["Not in CRM yet", "Added to CRM"]

/-- `getRequestType` of `src/api/index.js`: business development iff the
lower-cased text contains `"bd"` or `"business development"`. -/
def getRequestType (text : String) : RequestType :=
  if jsIncludesLower text "bd" || jsIncludesLower text "business development"
  then RequestType.bd else RequestType.feature

/-- The tagged command variants `parseCommand` can produce. -/
inductive Command : Type where
  | help : Command
  | status (requestType : RequestType) (showCompleted : Bool) : Command
  | update (requestType : RequestType) (featureQuery : String) (newStatus : String) : Command
  | create (requestType : RequestType) : Command
  deriving DecidableEq, Repr

/-- `parseCommand` of `src/api/index.js`.  The branch order is exactly the
source's: help/commands, then status, then update, then the create default.
In the update branch `text.split(/update\s+/i)[1]` is `undefined` whenever
no occurrence of `update` is followed by whitespace; calling `.split` on it
then raises a TypeError, modelled by the `Except.error` result. -/
def parseCommand (text : String) : Except String Command :=
  let requestType := getRequestType text
  if jsIncludesLower text "help" || jsIncludesLower text "commands" then
    Except.ok Command.help
  else if jsIncludesLower text "status" then
    Except.ok (Command.status requestType
      (jsIncludesLower text "all" || jsIncludesLower text "completed"))
  else if jsIncludesLower text "update" && jsIncludesLower text " to " then
    match (splitMatch matchUpdateWS text.data).get? 1 with
    | none => Except.error "TypeError: cannot read properties of undefined"
    | some seg =>
      match splitMatch matchWsToWs seg with
      | p0 :: p1 :: _ =>
        Except.ok (Command.update requestType
          (String.mk (jsTrimChars p0))
          (String.mk ((jsTrimChars p1).filter (fun c => c != '\"'))))
      | _ => Except.ok (Command.create requestType)
  else
    Except.ok (Command.create requestType)

/-- The category a parsed command carries, when it carries one. -/
def commandCategory : Command → Option RequestType
  | Command.help => none
  | Command.status rt _ => some rt
  | Command.update rt _ _ => some rt
  | Command.create rt => some rt

/-- A thrown JavaScript error as the handlers observe it: the optional
`error.code` the Notion client sets, and `error.message`. -/
structure JsError : Type where
  code : Option String
  message : String
  deriving DecidableEq, Repr

/-- A Notion page as the handlers read it: `page.id`, the first title rich
text (`undefined` possible, hence `Option`), the status select name
(likewise), plus the remaining fields a created page carries — the Slack
URL, the creation date and the page body blocks. -/
structure Page : Type where
  id : String
  title : Option String
  status : Option String
  slackUrl : Option String
  dateCreated : Option String
  body : List String
  deriving DecidableEq, Repr

/-- One Slack thread message: `msg.user` and `msg.text`. -/
structure Msg : Type where
  user : String
  text : String
  deriving DecidableEq, Repr

/-- Filters the handlers attach to Notion database queries. -/
inductive QueryFilter : Type where
  | titleContains (q : String) : QueryFilter
  | statusNotEqual (s : String) : QueryFilter
  deriving DecidableEq, Repr

/-- One observable external call of a handler, in program order.
`notionCreate` records a `pages.create` attempt together with whether the
store accepted it (the oracle outcome for that attempt). -/
inductive Effect : Type where
  | postMessage (channel threadTs text : String) : Effect
  | chatUpdate (channel ts text : String) : Effect
  | notionQuery (dbId : String) (filter : Option QueryFilter) (pageSize : Nat) : Effect
  | notionRetrieve (pageId : String) : Effect
  | notionUpdateStatus (pageId newStatus : String) : Effect
  | notionCreate (dbId title status body : String) (succeeded : Bool) : Effect
  | slackFetchThread (channel ts : String) : Effect
  deriving DecidableEq, Repr

/-- Is the effect a record-store call (query, retrieve, or mutation)? -/
def isStoreCall : Effect → Bool
  | Effect.notionQuery _ _ _ => true
  | Effect.notionRetrieve _ => true
  | Effect.notionUpdateStatus _ _ => true
  | Effect.notionCreate _ _ _ _ _ => true
  | _ => false

/-- Is the effect a record-store mutation? -/
def isStoreMutation : Effect → Bool
  | Effect.notionUpdateStatus _ _ => true
  | Effect.notionCreate _ _ _ _ _ => true
  | _ => false

/-- Is the effect a `pages.create` attempt? -/
def isCreateAttempt : Effect → Bool
  | Effect.notionCreate _ _ _ _ _ => true
  | _ => false

/-- Is the effect a `pages.create` attempt the store accepted? -/
def isSuccessfulCreate : Effect → Bool
  | Effect.notionCreate _ _ _ _ ok => ok
  | _ => false

/-- Is the effect the thread fetch (`conversations.replies`)? -/
def isThreadFetch : Effect → Bool
  | Effect.slackFetchThread _ _ => true
  | _ => false

/-- The per-category Notion database ids (`databaseIds` object); an unset
environment variable surfaces as the empty string, which is falsy. -/
structure BotConfig : Type where
  featureDbId : String
  bdDbId : String
  deriving DecidableEq, Repr

/-- `databaseIds[requestType]`. -/
def databaseIds (cfg : BotConfig) : RequestType → String
  | RequestType.feature => cfg.featureDbId
  | RequestType.bd => cfg.bdDbId

/-- The `throw new Error` message for a missing database id. -/
def noDbIdError (rt : RequestType) : JsError :=
  JsError.mk none ("No database ID configured for " ++ rtName rt ++ " requests")

/-- The invalid-status inline reply of `handleUpdateCommand`. -/
def invalidStatusText (rt : RequestType) (newStatus : String) : String :=
  "❌ Invalid status: \"" ++ newStatus ++ "\". Valid statuses for " ++ rtName rt
    ++ " are: " ++ String.intercalate ", " (validStatuses rt)

/-- The disambiguation reply of `handleUpdateCommand` listing every
candidate's display title. -/
def multipleMatchesText (q : String) (results : List Page) : String :=
  "Found multiple matches for \"" ++ q ++ "\". Please be more specific:\n\n"
    ++ String.join (results.map (fun p => "• *" ++ p.title.getD "Untitled" ++ "*\n"))

/-- The catch-block reply of `handleUpdateCommand`. -/
def updateErrorText (rt : RequestType) (e : JsError) : String :=
  let base := "❌ Failed to update " ++ rtName rt ++ " request status"
  if strContains e.message "timed out" then
    base ++ ": Request timed out. The Notion API might be experiencing delays."
  else if e.code = some "notFound" then
    base ++ ": Item or database not found. Please check your request."
  else
    base ++ ": " ++ e.message

/-- `handleUpdateCommand` of `src/api/index.js`, as the effect trace it
produces.  Oracles: `queryResult` is the store's answer to the title query,
`updateResult` the outcome of the status mutation. -/
def handleUpdateCommand (cfg : BotConfig) (channel threadTs : String)
    (rt : RequestType) (featureQuery newStatus : String)
    (queryResult : Except JsError (List Page))
    (updateResult : Except JsError Unit) : List Effect :=
  let dbId := databaseIds cfg rt
  if dbId = "" then
    [Effect.postMessage channel threadTs (updateErrorText rt (noDbIdError rt))]
  else
    match (validStatuses rt).find? (fun s => lowerStr s == lowerStr newStatus) with
    | none =>
      [Effect.postMessage channel threadTs (invalidStatusText rt newStatus)]
    | some exactStatusMatch =>
      Effect.notionQuery dbId (some (QueryFilter.titleContains featureQuery)) 5 ::
      match queryResult with
      | Except.error e =>
        [Effect.postMessage channel threadTs (updateErrorText rt e)]
      | Except.ok results =>
        if results.length = 0 then
          [Effect.postMessage channel threadTs
            ("❌ No " ++ rtName rt ++ " request found matching \"" ++ featureQuery ++ "\"")]
        else if results.length > 1 then
          [Effect.postMessage channel threadTs (multipleMatchesText featureQuery results)]
        else
          match results with
          | item :: _ =>
            let currentStatus := item.status.getD "Unknown"
            let title := item.title.getD "Untitled"
            Effect.notionUpdateStatus item.id exactStatusMatch ::
            match updateResult with
            | Except.error e =>
              [Effect.postMessage channel threadTs (updateErrorText rt e)]
            | Except.ok _ =>
              [Effect.postMessage channel threadTs
                ("✅ Updated status of \"" ++ title ++ "\" from \"" ++ currentStatus
                  ++ "\" to \"" ++ exactStatusMatch ++ "\"")]
          | [] => []  -- unreachable: guarded by results.length = 0 above

/-- The store-side meaning of the status mutation the update handler
issues: `pages.update` with a `properties` object containing only the
`Status` select, so only the status field of the addressed page changes. -/
def applyStatusMutation (store : List Page) (pageId newStatus : String) : List Page :=
  store.map (fun p => if p.id = pageId then { p with status := some newStatus } else p)

/-- The terminal status each category's default listing filters out
(`requestType === 'bd' ? 'Added to CRM' : 'Completed'`). -/
def completedStatusFor (rt : RequestType) : String :=
  if rt = RequestType.bd then "Added to CRM" else "Completed"

/-- The header line of a status listing (`*${dbType} Requests Status:*`). -/
def statusHeader (rt : RequestType) : String :=
  "*" ++ capitalizeFirst (rtName rt) ++ " Requests Status:*\n\n"

/-- One bullet line of a status listing. -/
def formatStatusPage (p : Page) : String :=
  "• *" ++ p.title.getD "Untitled" ++ "* - " ++ p.status.getD "Unknown" ++ "\n"

/-- The trailing hidden-terminal hint appended when completed records were
filtered out of the listing. -/
def hiddenHint (rt : RequestType) : String :=
  "\n_" ++ completedStatusFor rt ++ " " ++ rtName rt
    ++ " requests are hidden. Use '@helperbot status " ++ rtName rt
    ++ " all' to see everything._"

/-- The full rendered status reply: header, then either the no-results body
or one bullet per page, then the hidden-terminal hint unless `all` was
requested. -/
def renderStatusList (rt : RequestType) (showCompleted : Bool)
    (results : List Page) : String :=
  let body :=
    if results.length = 0 then "No requests found."
    else String.join (results.map formatStatusPage)
  statusHeader rt ++ body ++ (if showCompleted then "" else hiddenHint rt)

/-- The catch-block reply of `handleStatusCommand`. -/
def statusErrorText (rt : RequestType) (e : JsError) : String :=
  let base := "❌ Failed to fetch " ++ rtName rt ++ " requests"
  if strContains e.message "timed out" then
    base ++ ": Request timed out. The Notion API might be experiencing delays."
  else if e.code = some "notFound" then
    base ++ ": Database not found. Please check your configuration."
  else
    base ++ ": " ++ e.message

/-- `handleStatusCommand` of `src/api/index.js`: post the provisional
loading reply, query the category's database (excluding the terminal
status unless `showCompleted`), then overwrite the loading reply with the
rendered listing or the error text.  `loadingTs` is the timestamp Slack
assigned to the loading reply; `queryResult` is the store's answer (a
timeout loses the `Promise.race` and arrives as an error whose message
contains `timed out`). -/
def handleStatusCommand (cfg : BotConfig) (channel threadTs : String)
    (rt : RequestType) (showCompleted : Bool) (loadingTs : String)
    (queryResult : Except JsError (List Page)) : List Effect :=
  Effect.postMessage channel threadTs
    ("Fetching " ++ capitalizeFirst (rtName rt) ++ " statuses...") ::
  let dbId := databaseIds cfg rt
  if dbId = "" then
    [Effect.chatUpdate channel loadingTs (statusErrorText rt (noDbIdError rt))]
  else
    Effect.notionQuery dbId
      (if showCompleted then none
       else some (QueryFilter.statusNotEqual (completedStatusFor rt))) 10 ::
    match queryResult with
    | Except.error e => [Effect.chatUpdate channel loadingTs (statusErrorText rt e)]
    | Except.ok results =>
      [Effect.chatUpdate channel loadingTs (renderStatusList rt showCompleted results)]

/-- Word characters of the regex class `\w`. -/
def isWordChar (c : Char) : Bool :=
  (97 ≤ c.toNat && c.toNat ≤ 122) || (65 ≤ c.toNat && c.toNat ≤ 90)
    || (48 ≤ c.toNat && c.toNat ≤ 57) || c == '_'

/-- Anchored match of `/add\s+(\w+)\s+to\s+(bd|business development)/i`,
returning the first capture group.  Each greedy `\s+` / `\w+` can only
succeed with its maximal run, because a shorter run leaves a character of
the same class where the following literal requires a different one, so
backtracking never finds another match. -/
def matchAddToBdAt (cs : List Char) : Option (List Char) :=
  match stripPrefixCI "add".data cs with
  | none => none
  | some r1 =>
    let ws1 := (r1.takeWhile jsWS).length
    if ws1 = 0 then none
    else
      let r2 := r1.drop ws1
      let word := r2.takeWhile isWordChar
      if word.length = 0 then none
      else
        let r3 := r2.drop word.length
        let ws2 := (r3.takeWhile jsWS).length
        if ws2 = 0 then none
        else
          match stripPrefixCI "to".data (r3.drop ws2) with
          | none => none
          | some r4 =>
            let ws3 := (r4.takeWhile jsWS).length
            if ws3 = 0 then none
            else
              let r5 := r4.drop ws3
              match stripPrefixCI "bd".data r5 with
              | some _ => some word
              | none =>
                match stripPrefixCI "business development".data r5 with
                | some _ => some word
                | none => none

/-- Leftmost match of the add-to-bd regex over the whole text
(`originalMessage.text.match(addToBdRegex)`), returning capture group 1. -/
def matchAddToBd : List Char → Option (List Char)
  | [] => none
  | c :: cs =>
    match matchAddToBdAt (c :: cs) with
    | some w => some w
    | none => matchAddToBd cs

/-- Worker for `stripUserIds`; `fuel = input length` suffices because every
step consumes at least one character. -/
def stripUserIdsAux : Nat → List Char → List Char
  | 0, cs => cs
  | _ + 1, [] => []
  | fuel + 1, '<' :: '@' :: rest =>
    let run := rest.takeWhile
      (fun c => (65 ≤ c.toNat && c.toNat ≤ 90) || (48 ≤ c.toNat && c.toNat ≤ 57))
    if run.length > 0 then
      match rest.drop run.length with
      | '>' :: rest2 => stripUserIdsAux fuel rest2
      | _ => '<' :: stripUserIdsAux fuel ('@' :: rest)
    else '<' :: stripUserIdsAux fuel ('@' :: rest)
  | fuel + 1, c :: rest => c :: stripUserIdsAux fuel rest

/-- `requestTitle.replace(/<@[A-Z0-9]+>/g, '')`. -/
def stripUserIds (cs : List Char) : List Char :=
  stripUserIdsAux cs.length cs

/-- The request-title derivation of `handleCreateCommand`: first line of
the root message truncated to 80 characters; for bd requests the
`add X to bd` phrasing is recognised against the full root text and
normalised, else Slack user-id mentions are stripped; finally the
capitalized category prefix is added unless the (lower-cased) title already
contains the category key. -/
def deriveTitle (rt : RequestType) (origText : String) : String :=
  let base := String.mk ((origText.data.takeWhile (fun c => c != '\n')).take 80)
  let cap := capitalizeFirst (rtName rt)
  match rt with
  | RequestType.bd =>
    match matchAddToBd origText.data with
    | some teamName => cap ++ " request: Add " ++ String.mk teamName
    | none =>
      if strContains base "<@" then
        let cleaned := String.mk (jsTrimChars (stripUserIds base.data))
        if jsIncludesLower cleaned (rtName rt) then cleaned
        else cap ++ " request: " ++ cleaned
      else if jsIncludesLower base (rtName rt) then base
      else cap ++ " request: " ++ base
  | RequestType.feature =>
    if jsIncludesLower base (rtName rt) then base
    else cap ++ " request: " ++ base

/-- The attributed transcript body built from the thread.  Replies whose
text is empty (falsy) or mentions the bot are skipped; a failed user
lookup degrades to `Unknown User`. -/
def buildDescription (requesterName : String) (origText : String)
    (threadMessages : List Msg)
    (userName : String → Except JsError String) : String :=
  let base := "*Original request by " ++ requesterName ++ ":*\n" ++ origText ++ "\n\n"
  if threadMessages.length > 0 then
    base ++ "*Additional context from thread:*\n" ++
      String.join (threadMessages.map (fun msg =>
        if msg.text = "" || strContains msg.text "@helperbot" then ""
        else
          match userName msg.user with
          | Except.ok n => "- " ++ n ++ ": " ++ msg.text ++ "\n"
          | Except.error _ => "- Unknown User: " ++ msg.text ++ "\n"))
  else base

/-- The catch-block reply of `handleCreateCommand`. -/
def createErrorText (rt : RequestType) (e : JsError) : String :=
  let base := "❌ Failed to save " ++ rtName rt ++ " request"
  if strContains e.message "timed out" then
    base ++ ": Request timed out. The Notion API might be experiencing delays."
  else if e.code = some "notFound" then
    base ++ ": Database not found. Please check your configuration."
  else if strContains e.message "Date Created" then
    base ++ ": 'Date Created' property issue. Please add this property to your Notion database."
  else
    base ++ ": " ++ e.message

/-- The `while (attempt < maxRetries && !success)` retry loop around
`notion.pages.create`.  `outcome n` is the store's answer to the n-th
attempt.  Returns the per-attempt success flags in order together with the
loop's result: on a failed attempt the error is rethrown once
`attempt >= maxRetries`, otherwise the loop sleeps one second and retries. -/
def createRetryLoop (outcome : Nat → Except JsError Unit) :
    Nat → Nat → List Bool × Except JsError Unit
  | _, 0 => ([], Except.ok ())
  | attemptsSoFar, remaining + 1 =>
    match outcome (attemptsSoFar + 1) with
    | Except.ok _ => ([true], Except.ok ())
    | Except.error e =>
      if remaining = 0 then ([false], Except.error e)
      else
        let r := createRetryLoop outcome (attemptsSoFar + 1) remaining
        (false :: r.1, r.2)

/-- `handleCreateCommand` of `src/api/index.js`, as the effect trace it
produces.  Oracles: `fetchSched n` is what the n-th call to
`conversations.replies` would return (the handler performs exactly one
such call), `requesterName` / `channelName` the Slack lookups for the root
author and the channel, `userName` the per-reply author lookups, and
`createOutcome n` the store's answer to the n-th `pages.create` attempt. -/
def handleCreateCommand (cfg : BotConfig) (channel threadTs : String)
    (rt : RequestType)
    (fetchSched : Nat → Except JsError (List Msg))
    (requesterName : Except JsError String)
    (channelName : Except JsError (Option String))
    (userName : String → Except JsError String)
    (createOutcome : Nat → Except JsError Unit) : List Effect :=
  Effect.slackFetchThread channel threadTs ::
  match fetchSched 1 with
  | Except.error e => [Effect.postMessage channel threadTs (createErrorText rt e)]
  | Except.ok msgs =>
    match msgs with
    | [] =>
      [Effect.postMessage channel threadTs
        (createErrorText rt (JsError.mk none "No messages found in thread"))]
    | originalMessage :: threadMessages =>
      match requesterName with
      | Except.error e => [Effect.postMessage channel threadTs (createErrorText rt e)]
      | Except.ok reqName =>
        match channelName with
        | Except.error e => [Effect.postMessage channel threadTs (createErrorText rt e)]
        | Except.ok _ =>
          let requestTitle := deriveTitle rt originalMessage.text
          let fullDescription :=
            buildDescription reqName originalMessage.text threadMessages userName
          let dbId := databaseIds cfg rt
          if dbId = "" then
            [Effect.postMessage channel threadTs (createErrorText rt (noDbIdError rt))]
          else
            let initialStatus :=
              if rt = RequestType.bd then (validStatuses RequestType.bd).getD 0 ""
              else (validStatuses RequestType.feature).getD 0 ""
            let loop := createRetryLoop createOutcome 0 3
            (loop.1.map (fun ok =>
              Effect.notionCreate dbId requestTitle initialStatus fullDescription ok)) ++
            match loop.2 with
            | Except.error e =>
              [Effect.postMessage channel threadTs (createErrorText rt e)]
            | Except.ok _ =>
              [Effect.postMessage channel threadTs
                ("✅ " ++ capitalizeFirst (rtName rt) ++ " request saved to Notion database!")]

/-- The Notion page-id shape test of `findFeatureInNotion`:
`searchText.match(/^[a-f0-9]{32}$/)`. -/
def isPageIdShape (s : String) : Bool :=
  s.data.length = 32 && s.data.all
    (fun c => (97 ≤ c.toNat && c.toNat ≤ 102) || (48 ≤ c.toNat && c.toNat ≤ 57))

/-- `findFeatureInNotion` of `src/unnamed/part_001`: query the database for
titles containing the search text (page size 5); on any results return
them; on zero results, if the text has the exact page-id shape, retrieve
by id — success yields that single page, a caught failure yields the empty
list; otherwise the empty list.  The title query itself is not caught, so
its failure propagates.  Returns the effect trace and the result list. -/
def findFeatureInNotion (dbId : String) (searchText : String)
    (titleQueryResult : Except JsError (List Page))
    (retrieveResult : Except JsError Page) :
    Except JsError (List Effect × List Page) :=
  let queryEff := Effect.notionQuery dbId (some (QueryFilter.titleContains searchText)) 5
  match titleQueryResult with
  | Except.error e => Except.error e
  | Except.ok titleResults =>
    if titleResults.length > 0 then Except.ok ([queryEff], titleResults)
    else if isPageIdShape searchText then
      match retrieveResult with
      | Except.ok page =>
        Except.ok ([queryEff, Effect.notionRetrieve searchText], [page])
      | Except.error _ =>
        Except.ok ([queryEff, Effect.notionRetrieve searchText], [])
    else Except.ok ([queryEff], [])

/-- C9: category resolution — `getRequestType` yields business-development
exactly when the lower-cased text contains `"bd"` or
`"business development"` as an unanchored substring, and every command
`parseCommand` produces that carries a category carries this one,
independently of which command was classified. -/
theorem getRequestType_bd_iff (text : String) :
    (getRequestType text = RequestType.bd ↔
      (jsIncludesLower text "bd" || jsIncludesLower text "business development") = true)
    ∧ (∀ cmd, parseCommand text = Except.ok cmd →
        ∀ rt, commandCategory cmd = some rt → rt = getRequestType text) := by
  constructor
  · unfold getRequestType
    by_cases h : (jsIncludesLower text "bd" || jsIncludesLower text "business development") = true
    · simp [h]
    · simp [h]
  · intro cmd hcmd rt hrt
    unfold parseCommand at hcmd
    split at hcmd
    · cases hcmd
      simp [commandCategory] at hrt
    · split at hcmd
      · cases hcmd
        simp [commandCategory] at hrt
        exact hrt.symm
      · split at hcmd
        · split at hcmd
          · cases hcmd
          · split at hcmd
            · cases hcmd
              simp [commandCategory] at hrt
              exact hrt.symm
            · cases hcmd
              simp [commandCategory] at hrt
              exact hrt.symm
        · cases hcmd
          simp [commandCategory] at hrt
          exact hrt.symm

/-- C9 witness: `"status bd"` resolves to the business-development
category, and the classified Status command carries that category. -/
theorem getRequestType_bd_iff_witness :
    RequestType.bd = getRequestType "status bd" :=
  (getRequestType_bd_iff "status bd").2
    (Command.status RequestType.bd false) (by decide) RequestType.bd (by decide)

/-- C1 counterexample: `"update foo to new status"` contains no
`"help"`/`"commands"`, contains `"update"` and `" to "`, and its split
yields the two non-empty parts `"foo"` and `"new status"`, yet
`parseCommand` classifies it as a Status command, not the Update command,
because the status rule is checked before the update rule. -/
theorem parseCommand_status_precedes_update_cex :
    parseCommand "update foo to new status" =
      Except.ok (Command.status RequestType.feature false)
    ∧ parseCommand "update foo to new status" ≠
      Except.ok (Command.update RequestType.feature "foo" "new status") := by
  constructor
  · rfl
  · decide

/-- C1 amended: for every text that does not contain `"help"`,
`"commands"` or `"status"` (case-insensitively) but contains `"update"`
and `" to "`, and whose split on `/update\s+/i` has a second segment whose
split on `/\s+to\s+/i` yields at least two parts, classification returns
the Update command carrying the trimmed first part as query and the
trimmed, quote-stripped second part as new status.  (When the text also
contains `"status"` the status rule wins, since it is applied first.) -/
theorem parseCommand_update_rule (text : String) (seg p0 p1 : List Char)
    (rest : List (List Char))
    (hHelp : jsIncludesLower text "help" = false)
    (hCmds : jsIncludesLower text "commands" = false)
    (hStatus : jsIncludesLower text "status" = false)
    (hUpd : jsIncludesLower text "update" = true)
    (hTo : jsIncludesLower text " to " = true)
    (hseg : (splitMatch matchUpdateWS text.data).get? 1 = some seg)
    (hparts : splitMatch matchWsToWs seg = p0 :: p1 :: rest) :
    parseCommand text = Except.ok (Command.update (getRequestType text)
      (String.mk (jsTrimChars p0))
      (String.mk ((jsTrimChars p1).filter (fun c => c != '\"')))) := by
  unfold parseCommand
  simp only [hHelp, hCmds, hStatus, hUpd, hTo, Bool.false_or, Bool.and_self,
    if_false, if_true, Bool.false_eq_true, Bool.true_and, hseg]
  rw [hparts]

/-- C1 witness: a concrete update text (with no incidental `"status"`)
classifies as the Update command with the extracted query and status. -/
theorem parseCommand_update_rule_witness :
    jsIncludesLower "update widget to done" "status" = false
    ∧ parseCommand "update widget to done" =
        Except.ok (Command.update RequestType.feature "widget" "done") := by
  refine ⟨by decide, ?_⟩
  exact parseCommand_update_rule "update widget to done" "widget to done".data
    "widget".data "done".data [] (by decide) (by decide) (by decide) (by decide)
    (by decide) (by decide) (by decide)

/-- C4 counterexample: the classifier is not exception-free.  On
`"updated a to b"` (which contains `"update"` and `" to "`, but where no
occurrence of `update` is followed by whitespace) `split(/update\s+/i)`
yields a single segment, indexing `[1]` gives `undefined`, and the
subsequent `.split` call throws a TypeError.  Moreover on
`"update foo to "` the split yields the parts `"foo"` and `""` — fewer
than two non-empty parts — yet classification returns the Update command
rather than falling through. -/
theorem parseCommand_totality_cex :
    parseCommand "updated a to b" =
      Except.error "TypeError: cannot read properties of undefined"
    ∧ parseCommand "update foo to " =
        Except.ok (Command.update RequestType.feature "foo" "") := by
  constructor
  · rfl
  · rfl

/-- C4 amended: whenever the update branch is reached and the split on
`/update\s+/i` does have a second segment (some occurrence of `update` is
followed by whitespace), but the split of that segment on `/\s+to\s+/i`
yields fewer than two parts (empty parts counted), classification falls
through to the create default and returns a command without erroring.
When no occurrence of `update` is followed by whitespace, the update
branch instead throws a TypeError, caught by the orchestrator's top-level
handler. -/
theorem parseCommand_malformed_update_falls_through (text : String) (seg : List Char)
    (hHelp : jsIncludesLower text "help" = false)
    (hCmds : jsIncludesLower text "commands" = false)
    (hStatus : jsIncludesLower text "status" = false)
    (hUpd : jsIncludesLower text "update" = true)
    (hTo : jsIncludesLower text " to " = true)
    (hseg : (splitMatch matchUpdateWS text.data).get? 1 = some seg)
    (hparts : (splitMatch matchWsToWs seg).length < 2) :
    parseCommand text = Except.ok (Command.create (getRequestType text)) := by
  unfold parseCommand
  simp only [hHelp, hCmds, hStatus, hUpd, hTo, hseg, Bool.false_or, Bool.and_self,
    if_false, if_true, Bool.false_eq_true, Bool.true_and]
  match h : splitMatch matchWsToWs seg with
  | [] => simp [h]
  | [_] => simp [h]
  | _ :: _ :: _ =>
    rw [h] at hparts
    simp only [List.length_cons] at hparts
    omega

/-- C4 witness: `"updatex update  to x"` reaches the update branch, the
first split has a second segment `"to x"`, the second split yields a
single part, and classification falls through to the create default. -/
theorem parseCommand_malformed_update_falls_through_witness :
    parseCommand "updatex update  to x" =
      Except.ok (Command.create RequestType.feature) := by
  exact parseCommand_malformed_update_falls_through "updatex update  to x" "to x".data
    (by decide) (by decide) (by decide) (by decide) (by decide) (by decide) (by decide)

/-- C2: update-path status validation — with the database id configured,
the handler's behaviour is exactly the single InvalidStatus reply if and
only if no member of the active category's enumeration equals the
candidate case-insensitively, and in that case no record-store call
(query, retrieve or mutation) is made. -/
theorem update_invalid_status_iff (cfg : BotConfig) (channel threadTs : String)
    (rt : RequestType) (featureQuery newStatus : String)
    (queryResult : Except JsError (List Page)) (updateResult : Except JsError Unit)
    (hdb : databaseIds cfg rt ≠ "") :
    ((∀ s ∈ validStatuses rt, lowerStr s ≠ lowerStr newStatus) ↔
      handleUpdateCommand cfg channel threadTs rt featureQuery newStatus
          queryResult updateResult
        = [Effect.postMessage channel threadTs (invalidStatusText rt newStatus)])
    ∧ ((∀ s ∈ validStatuses rt, lowerStr s ≠ lowerStr newStatus) →
        ∀ e ∈ handleUpdateCommand cfg channel threadTs rt featureQuery newStatus
            queryResult updateResult,
          isStoreCall e = false) := by
  have key : (validStatuses rt).find? (fun s => lowerStr s == lowerStr newStatus) = none
      ↔ (∀ s ∈ validStatuses rt, lowerStr s ≠ lowerStr newStatus) := by
    simp [List.find?_eq_none]
  cases h : (validStatuses rt).find? (fun s => lowerStr s == lowerStr newStatus) with
  | none =>
    have htr : handleUpdateCommand cfg channel threadTs rt featureQuery newStatus
        queryResult updateResult
        = [Effect.postMessage channel threadTs (invalidStatusText rt newStatus)] := by
      simp only [handleUpdateCommand]
      rw [if_neg hdb, h]
    refine ⟨Iff.intro (fun _ => htr) (fun _ => key.mp h), ?_⟩
    intro _ e he
    rw [htr] at he
    simp only [List.mem_singleton] at he
    subst he
    rfl
  | some m =>
    have hnot : ¬ (∀ s ∈ validStatuses rt, lowerStr s ≠ lowerStr newStatus) := by
      intro hall
      rw [key.mpr hall] at h
      exact Option.noConfusion h
    refine ⟨⟨fun hall => absurd hall hnot, fun htr => ?_⟩,
      fun hall => absurd hall hnot⟩
    exfalso
    simp only [handleUpdateCommand] at htr
    rw [if_neg hdb, h] at htr
    cases queryResult <;> simp at htr

/-- C2 witness: `"Blorp"` matches no feature status, so the handler's
whole behaviour is the single InvalidStatus reply. -/
theorem update_invalid_status_iff_witness :
    handleUpdateCommand (BotConfig.mk "dbF" "dbB") "C" "T" RequestType.feature
        "foo" "Blorp" (Except.ok []) (Except.ok ())
      = [Effect.postMessage "C" "T" (invalidStatusText RequestType.feature "Blorp")] :=
  (update_invalid_status_iff (BotConfig.mk "dbF" "dbB") "C" "T" RequestType.feature
    "foo" "Blorp" (Except.ok []) (Except.ok ()) (by decide)).1.mp (by decide)

/-- C3: disambiguation policy of the update path, status already
validated — zero matcher results yield exactly the query and the
not-found reply (in particular no mutation); two or more results yield
exactly the query and the reply listing the candidate titles, with no
store mutation in the trace (every candidate's status field is left
unchanged); exactly one result proceeds to the status mutation. -/
theorem update_disambiguation_policy (cfg : BotConfig) (channel threadTs : String)
    (rt : RequestType) (q ns m : String) (ur : Except JsError Unit)
    (hdb : databaseIds cfg rt ≠ "")
    (hfind : (validStatuses rt).find? (fun s => lowerStr s == lowerStr ns) = some m) :
    (handleUpdateCommand cfg channel threadTs rt q ns (Except.ok []) ur =
      [Effect.notionQuery (databaseIds cfg rt) (some (QueryFilter.titleContains q)) 5,
       Effect.postMessage channel threadTs
         ("❌ No " ++ rtName rt ++ " request found matching \"" ++ q ++ "\"")])
    ∧ (∀ a b tl, handleUpdateCommand cfg channel threadTs rt q ns
          (Except.ok (a :: b :: tl)) ur =
        [Effect.notionQuery (databaseIds cfg rt) (some (QueryFilter.titleContains q)) 5,
         Effect.postMessage channel threadTs (multipleMatchesText q (a :: b :: tl))])
    ∧ (∀ a b tl eff, eff ∈ handleUpdateCommand cfg channel threadTs rt q ns
          (Except.ok (a :: b :: tl)) ur → isStoreMutation eff = false)
    ∧ (∀ eff, eff ∈ handleUpdateCommand cfg channel threadTs rt q ns
          (Except.ok []) ur → isStoreMutation eff = false)
    ∧ (∀ item, Effect.notionUpdateStatus item.id m ∈
        handleUpdateCommand cfg channel threadTs rt q ns (Except.ok [item]) ur) := by
  have h0 : handleUpdateCommand cfg channel threadTs rt q ns (Except.ok []) ur =
      [Effect.notionQuery (databaseIds cfg rt) (some (QueryFilter.titleContains q)) 5,
       Effect.postMessage channel threadTs
         ("❌ No " ++ rtName rt ++ " request found matching \"" ++ q ++ "\"")] := by
    simp only [handleUpdateCommand]
    rw [if_neg hdb, hfind]
    simp
  have h2 : ∀ a b tl, handleUpdateCommand cfg channel threadTs rt q ns
      (Except.ok (a :: b :: tl)) ur =
      [Effect.notionQuery (databaseIds cfg rt) (some (QueryFilter.titleContains q)) 5,
       Effect.postMessage channel threadTs (multipleMatchesText q (a :: b :: tl))] := by
    intro a b tl
    simp only [handleUpdateCommand]
    rw [if_neg hdb, hfind]
    simp
  refine ⟨h0, h2, ?_, ?_, ?_⟩
  · intro a b tl eff heff
    rw [h2 a b tl] at heff
    simp only [List.mem_cons, List.mem_singleton, List.not_mem_nil, or_false] at heff
    cases heff with
    | inl he => subst he; rfl
    | inr he => subst he; rfl
  · intro eff heff
    rw [h0] at heff
    simp only [List.mem_cons, List.mem_singleton, List.not_mem_nil, or_false] at heff
    cases heff with
    | inl he => subst he; rfl
    | inr he => subst he; rfl
  · intro item
    simp only [handleUpdateCommand]
    rw [if_neg hdb, hfind]
    cases ur <;> simp

/-- C3 witness: with a valid status and two matching records, the handler
replies with the disambiguation list and performs no mutation. -/
theorem update_disambiguation_policy_witness :
    handleUpdateCommand (BotConfig.mk "dbF" "dbB") "C" "T" RequestType.feature
        "foo" "Completed"
        (Except.ok [Page.mk "p1" (some "Foo widget") (some "New") none none [],
                    Page.mk "p2" (some "Foo gadget") (some "New") none none []])
        (Except.ok ())
      = [Effect.notionQuery "dbF" (some (QueryFilter.titleContains "foo")) 5,
         Effect.postMessage "C" "T" (multipleMatchesText "foo"
           [Page.mk "p1" (some "Foo widget") (some "New") none none [],
            Page.mk "p2" (some "Foo gadget") (some "New") none none []])] :=
  (update_disambiguation_policy (BotConfig.mk "dbF" "dbB") "C" "T" RequestType.feature
    "foo" "Completed" "Completed" (Except.ok ()) (by decide) (by decide)).2.1
    (Page.mk "p1" (some "Foo widget") (some "New") none none [])
    (Page.mk "p2" (some "Foo gadget") (some "New") none none []) []

/-- C6: on exactly one match (status already validated) the handler issues
exactly the title query, the status mutation to the canonically-cased
enumeration member, and the reply confirming the old → new transition; and
the store-side meaning of that mutation changes only the status field of
the addressed page — id, title, Slack URL, creation date and body of every
page are preserved. -/
theorem update_single_match_mutation (cfg : BotConfig) (channel threadTs : String)
    (rt : RequestType) (q ns m : String) (item : Page)
    (hdb : databaseIds cfg rt ≠ "")
    (hfind : (validStatuses rt).find? (fun s => lowerStr s == lowerStr ns) = some m) :
    (handleUpdateCommand cfg channel threadTs rt q ns (Except.ok [item]) (Except.ok ()) =
      [Effect.notionQuery (databaseIds cfg rt) (some (QueryFilter.titleContains q)) 5,
       Effect.notionUpdateStatus item.id m,
       Effect.postMessage channel threadTs
         ("✅ Updated status of \"" ++ item.title.getD "Untitled" ++ "\" from \""
           ++ item.status.getD "Unknown" ++ "\" to \"" ++ m ++ "\"")])
    ∧ (∀ store pg, pg ∈ applyStatusMutation store item.id m →
        ∃ p0, p0 ∈ store ∧ pg.id = p0.id ∧ pg.title = p0.title
          ∧ pg.slackUrl = p0.slackUrl ∧ pg.dateCreated = p0.dateCreated
          ∧ pg.body = p0.body
          ∧ (pg.status = p0.status ∨ (p0.id = item.id ∧ pg.status = some m))) := by
  constructor
  · simp only [handleUpdateCommand]
    rw [if_neg hdb, hfind]
    simp
  · intro store pg hpg
    rw [applyStatusMutation, List.mem_map] at hpg
    obtain ⟨p0, hp0, heq⟩ := hpg
    refine ⟨p0, hp0, ?_⟩
    by_cases hid : p0.id = item.id
    · rw [if_pos hid] at heq
      subst heq
      exact ⟨rfl, rfl, rfl, rfl, rfl, Or.inr ⟨hid, rfl⟩⟩
    · rw [if_neg hid] at heq
      subst heq
      exact ⟨rfl, rfl, rfl, rfl, rfl, Or.inl rfl⟩

/-- C6 witness: the spec's scenario — `"update foo to Completed"`
classifies as the Update command, and with the single matching record
"Foo widget" in status "New" the handler mutates that record's status to
"Completed" and replies with exactly the confirmed transition. -/
theorem update_single_match_mutation_witness :
    parseCommand "update foo to Completed" =
      Except.ok (Command.update RequestType.feature "foo" "Completed")
    ∧ handleUpdateCommand (BotConfig.mk "dbF" "dbB") "C" "T" RequestType.feature
        "foo" "Completed"
        (Except.ok [Page.mk "p1" (some "Foo widget") (some "New") none none []])
        (Except.ok ())
      = [Effect.notionQuery "dbF" (some (QueryFilter.titleContains "foo")) 5,
         Effect.notionUpdateStatus "p1" "Completed",
         Effect.postMessage "C" "T"
           "✅ Updated status of \"Foo widget\" from \"New\" to \"Completed\""] :=
  ⟨by decide,
   (update_single_match_mutation (BotConfig.mk "dbF" "dbB") "C" "T" RequestType.feature
     "foo" "Completed" "Completed"
     (Page.mk "p1" (some "Foo widget") (some "New") none none [])
     (by decide) (by decide)).1⟩

/-- C7: record-matcher identifier fallback — when the title-substring
query returns zero results and the query has the exact page-id shape
(32 lowercase hex characters), a direct retrieve by id is attempted; a
successful retrieve yields the single-element result list, and a caught
failure (not found or inaccessible) yields the empty list. -/
theorem findFeature_id_fallback (dbId q : String) (rr : Except JsError Page)
    (hshape : isPageIdShape q = true) :
    (∀ page, rr = Except.ok page →
      findFeatureInNotion dbId q (Except.ok []) rr =
        Except.ok ([Effect.notionQuery dbId (some (QueryFilter.titleContains q)) 5,
                    Effect.notionRetrieve q], [page]))
    ∧ (∀ e, rr = Except.error e →
      findFeatureInNotion dbId q (Except.ok []) rr =
        Except.ok ([Effect.notionQuery dbId (some (QueryFilter.titleContains q)) 5,
                    Effect.notionRetrieve q], [])) := by
  constructor
  · intro page h
    subst h
    simp [findFeatureInNotion, hshape]
  · intro e h
    subst h
    simp [findFeatureInNotion, hshape]

/-- C7 witness: a 32-character lowercase hex query with no title match
retrieves by id and yields exactly the fetched page. -/
theorem findFeature_id_fallback_witness :
    findFeatureInNotion "dbF" "aaaaaaaaaaaaaaaaaaaaaaaaaaaaaaaa" (Except.ok [])
        (Except.ok (Page.mk "aaaaaaaaaaaaaaaaaaaaaaaaaaaaaaaa" (some "T") (some "New")
          none none []))
      = Except.ok ([Effect.notionQuery "dbF"
            (some (QueryFilter.titleContains "aaaaaaaaaaaaaaaaaaaaaaaaaaaaaaaa")) 5,
          Effect.notionRetrieve "aaaaaaaaaaaaaaaaaaaaaaaaaaaaaaaa"],
         [Page.mk "aaaaaaaaaaaaaaaaaaaaaaaaaaaaaaaa" (some "T") (some "New") none none []]) :=
  (findFeature_id_fallback "dbF" "aaaaaaaaaaaaaaaaaaaaaaaaaaaaaaaa"
    (Except.ok (Page.mk "aaaaaaaaaaaaaaaaaaaaaaaaaaaaaaaa" (some "T") (some "New")
      none none [])) (by decide)).1
    (Page.mk "aaaaaaaaaaaaaaaaaaaaaaaaaaaaaaaa" (some "T") (some "New") none none []) rfl

/-- C8: status listing — with the database id configured and
`showCompleted = false` the store query carries the filter excluding the
category's terminal status; the rendered reply is the category header
followed by exactly "No requests found." for an empty result list, else
one bullet line per record, and (terminal records having been filtered)
the trailing hint naming the reveal command; and the handler's full trace
on a successful query is the loading reply, the filtered query, and the
overwrite with the rendered listing. -/
theorem status_listing_rendering (cfg : BotConfig) (channel threadTs loadingTs : String)
    (rt : RequestType) (queryResult : Except JsError (List Page))
    (hdb : databaseIds cfg rt ≠ "") :
    (Effect.notionQuery (databaseIds cfg rt)
        (some (QueryFilter.statusNotEqual (completedStatusFor rt))) 10 ∈
      handleStatusCommand cfg channel threadTs rt false loadingTs queryResult)
    ∧ (renderStatusList rt false [] = statusHeader rt ++ "No requests found." ++ hiddenHint rt)
    ∧ (∀ results, results ≠ [] →
        renderStatusList rt false results =
          statusHeader rt ++ String.join (results.map (fun p =>
            "• *" ++ p.title.getD "Untitled" ++ "* - " ++ p.status.getD "Unknown" ++ "\n"))
            ++ hiddenHint rt)
    ∧ (∀ results, handleStatusCommand cfg channel threadTs rt false loadingTs
          (Except.ok results) =
        [Effect.postMessage channel threadTs
           ("Fetching " ++ capitalizeFirst (rtName rt) ++ " statuses..."),
         Effect.notionQuery (databaseIds cfg rt)
           (some (QueryFilter.statusNotEqual (completedStatusFor rt))) 10,
         Effect.chatUpdate channel loadingTs (renderStatusList rt false results)]) := by
  have htrace : ∀ qr : Except JsError (List Page),
      handleStatusCommand cfg channel threadTs rt false loadingTs qr =
        Effect.postMessage channel threadTs
            ("Fetching " ++ capitalizeFirst (rtName rt) ++ " statuses...") ::
        Effect.notionQuery (databaseIds cfg rt)
            (some (QueryFilter.statusNotEqual (completedStatusFor rt))) 10 ::
        (match qr with
         | Except.error e => [Effect.chatUpdate channel loadingTs (statusErrorText rt e)]
         | Except.ok results =>
           [Effect.chatUpdate channel loadingTs (renderStatusList rt false results)]) := by
    intro qr
    simp only [handleStatusCommand]
    rw [if_neg hdb]
    simp
  refine ⟨?_, ?_, ?_, ?_⟩
  · rw [htrace queryResult]
    simp
  · simp [renderStatusList]
  · intro results hne
    have hlen : ¬ (results.length = 0) := by
      simpa [List.length_eq_zero] using hne
    simp only [renderStatusList]
    rw [if_neg hlen]
    rfl
  · intro results
    rw [htrace (Except.ok results)]

/-- C8 witness: the spec's scenario — `"status bd"` classifies as the
Status command for business development without the terminal override,
and with zero matching records the handler's reply body is exactly
"No requests found." under the business-development header plus the
hidden-terminal hint. -/
theorem status_listing_rendering_witness :
    parseCommand "status bd" = Except.ok (Command.status RequestType.bd false)
    ∧ handleStatusCommand (BotConfig.mk "dbF" "dbB") "C" "T" RequestType.bd false "L"
        (Except.ok []) =
      [Effect.postMessage "C" "T" "Fetching Bd statuses...",
       Effect.notionQuery "dbB" (some (QueryFilter.statusNotEqual "Added to CRM")) 10,
       Effect.chatUpdate "C" "L" ("*Bd Requests Status:*\n\n" ++ "No requests found."
         ++ "\n_Added to CRM bd requests are hidden. Use '@helperbot status bd all' to see everything._")] :=
  ⟨by decide,
   by
    rw [(status_listing_rendering (BotConfig.mk "dbF" "dbB") "C" "T" "L" RequestType.bd
      (Except.ok []) (by decide)).2.2.2 []]
    decide⟩

/-- The retry loop never makes more attempts than it has remaining. -/
theorem createRetryLoop_length_le (outcome : Nat → Except JsError Unit) :
    ∀ (r a : Nat), (createRetryLoop outcome a r).1.length ≤ r := by
  intro r
  induction r with
  | zero => intro a; simp [createRetryLoop]
  | succ n ih =>
    intro a
    simp only [createRetryLoop]
    cases h : outcome (a + 1) with
    | ok _ => simp
    | error e =>
      by_cases hn : n = 0
      · subst hn; simp
      · simp only [if_neg hn]
        simpa using Nat.succ_le_succ (ih (a + 1))

/-- Every effect emitted by the create retry loop is a create attempt. -/
theorem createMap_filter_attempt (flags : List Bool) (db t s b : String) :
    ((flags.map (fun ok => Effect.notionCreate db t s b ok)).filter
      isCreateAttempt).length = flags.length := by
  induction flags with
  | nil => rfl
  | cons a l ih => simp [List.filter_cons, isCreateAttempt, ih]

/-- The create retry loop never emits a thread fetch. -/
theorem createMap_filter_fetch (flags : List Bool) (db t s b : String) :
    (flags.map (fun ok => Effect.notionCreate db t s b ok)).filter isThreadFetch = [] := by
  induction flags with
  | nil => rfl
  | cons a l ih => simp [List.filter_cons, isThreadFetch, ih]

/-- Counting successful create attempts counts the true flags. -/
theorem createMap_filter_success (flags : List Bool) (db t s b : String) :
    ((flags.map (fun ok => Effect.notionCreate db t s b ok)).filter
      isSuccessfulCreate).length = (flags.filter (fun x => x)).length := by
  induction flags with
  | nil => rfl
  | cons a l ih => cases a <;> simp [List.filter_cons, isSuccessfulCreate, ih]

/-- A create effect found among the retry loop's emissions carries the
status the loop was given. -/
theorem createMap_mem_status (flags : List Bool) (db1 t1 s1 b1 : String)
    (db t s b : String) (ok : Bool)
    (h : Effect.notionCreate db t s b ok ∈
      flags.map (fun k => Effect.notionCreate db1 t1 s1 b1 k)) :
    s = s1 := by
  induction flags with
  | nil => simp at h
  | cons a l ih =>
    simp only [List.map_cons, List.mem_cons, Effect.notionCreate.injEq] at h
    rcases h with ⟨-, -, e3, -, -⟩ | he
    · exact e3
    · exact ih he

/-- C5 (amended): the create path attempts the record creation at most 3
times and performs the thread fetch exactly once (it is never retried);
and in the scenario where the record creation — the retried operation —
throws on the first two attempts and succeeds on the third, exactly one
record is created (one successful create attempt, three attempts in all)
and the confirmation reply is sent. -/
theorem create_retry_and_exactly_once (cfg : BotConfig) (channel threadTs : String)
    (rt : RequestType)
    (fetchSched : Nat → Except JsError (List Msg))
    (reqName : Except JsError String)
    (chName : Except JsError (Option String))
    (uName : String → Except JsError String)
    (outcome : Nat → Except JsError Unit) :
    (((handleCreateCommand cfg channel threadTs rt fetchSched reqName chName uName
        outcome).filter isCreateAttempt).length ≤ 3)
    ∧ (((handleCreateCommand cfg channel threadTs rt fetchSched reqName chName uName
        outcome).filter isThreadFetch).length = 1)
    ∧ (∀ m ms rn cn e1 e2,
        fetchSched 1 = Except.ok (m :: ms) →
        reqName = Except.ok rn →
        chName = Except.ok cn →
        databaseIds cfg rt ≠ "" →
        outcome 1 = Except.error e1 →
        outcome 2 = Except.error e2 →
        outcome 3 = Except.ok () →
        (((handleCreateCommand cfg channel threadTs rt fetchSched reqName chName uName
            outcome).filter isSuccessfulCreate).length = 1
         ∧ ((handleCreateCommand cfg channel threadTs rt fetchSched reqName chName uName
            outcome).filter isCreateAttempt).length = 3
         ∧ Effect.postMessage channel threadTs
            ("✅ " ++ capitalizeFirst (rtName rt) ++ " request saved to Notion database!")
            ∈ handleCreateCommand cfg channel threadTs rt fetchSched reqName chName uName
              outcome)) := by
  refine ⟨?_, ?_, ?_⟩
  · simp only [handleCreateCommand]
    cases hf : fetchSched 1 with
    | error e => simp [List.filter_cons, isCreateAttempt]
    | ok msgs =>
      cases msgs with
      | nil => simp [List.filter_cons, isCreateAttempt]
      | cons m0 tms =>
        cases reqName with
        | error e => simp [List.filter_cons, isCreateAttempt]
        | ok rn =>
          cases chName with
          | error e => simp [List.filter_cons, isCreateAttempt]
          | ok cn =>
            by_cases hdb : databaseIds cfg rt = ""
            · simp [hdb, List.filter_cons, isCreateAttempt]
            · simp only [if_neg hdb]
              rcases hl : createRetryLoop outcome 0 3 with ⟨flags, res⟩
              have hflags : flags.length ≤ 3 := by
                have h3 := createRetryLoop_length_le outcome 3 0
                rw [hl] at h3
                simpa using h3
              cases res with
              | error e =>
                simp [hl, List.filter_cons, List.filter_append, isCreateAttempt,
                  createMap_filter_attempt, hflags]
              | ok _ =>
                simp [hl, List.filter_cons, List.filter_append, isCreateAttempt,
                  createMap_filter_attempt, hflags]
  · simp only [handleCreateCommand]
    cases hf : fetchSched 1 with
    | error e => simp [List.filter_cons, isThreadFetch]
    | ok msgs =>
      cases msgs with
      | nil => simp [List.filter_cons, isThreadFetch]
      | cons m0 tms =>
        cases reqName with
        | error e => simp [List.filter_cons, isThreadFetch]
        | ok rn =>
          cases chName with
          | error e => simp [List.filter_cons, isThreadFetch]
          | ok cn =>
            by_cases hdb : databaseIds cfg rt = ""
            · simp [hdb, List.filter_cons, isThreadFetch]
            · simp only [if_neg hdb]
              rcases hl : createRetryLoop outcome 0 3 with ⟨flags, res⟩
              cases res with
              | error e =>
                simp [hl, List.filter_cons, List.filter_append, isThreadFetch,
                  createMap_filter_fetch]
              | ok _ =>
                simp [hl, List.filter_cons, List.filter_append, isThreadFetch,
                  createMap_filter_fetch]
  · intro m ms rn cn e1 e2 hf hreq hch hdb h1 h2 h3
    have hloop : createRetryLoop outcome 0 3 = ([false, false, true], Except.ok ()) := by
      simp [createRetryLoop, h1, h2, h3]
    simp only [handleCreateCommand]
    rw [hf, hreq, hch]
    simp only [if_neg hdb, hloop]
    refine ⟨?_, ?_, ?_⟩
    · simp [List.filter_cons, List.filter_append, isSuccessfulCreate]
    · simp [List.filter_cons, List.filter_append, isCreateAttempt]
    · simp

/-- C5 counterexample (to the claim as stated): the thread fetch is not
the retried operation.  Under the claim's fault schedule — the thread
fetch throws on the first two attempts and would succeed on the third —
the handler reports the failure immediately after its single fetch: no
record is created and no confirmation is sent, where the claim promises
exactly one record and a confirmation. -/
theorem create_fetch_not_retried_cex :
    handleCreateCommand (BotConfig.mk "dbF" "dbB") "C" "T" RequestType.feature
      (fun n => if n ≤ 2 then Except.error (JsError.mk none "boom")
                else Except.ok [Msg.mk "u1" "x"])
      (Except.ok "Alice") (Except.ok (some "general")) (fun _ => Except.ok "Bob")
      (fun _ => Except.ok ()) =
    [Effect.slackFetchThread "C" "T",
     Effect.postMessage "C" "T" "❌ Failed to save feature request: boom"] := by
  rfl

/-- C5 witness: with the record creation failing twice then succeeding,
exactly one record is created and the confirmation reply is sent. -/
theorem create_retry_and_exactly_once_witness :
    ((handleCreateCommand (BotConfig.mk "dbF" "dbB") "C" "T" RequestType.feature
        (fun _ => Except.ok [Msg.mk "u1" "dark mode"])
        (Except.ok "Alice") (Except.ok (some "general")) (fun _ => Except.ok "Bob")
        (fun n => if n ≤ 2 then Except.error (JsError.mk none "boom")
                  else Except.ok ())).filter isSuccessfulCreate).length = 1
    ∧ Effect.postMessage "C" "T" "✅ Feature request saved to Notion database!"
        ∈ handleCreateCommand (BotConfig.mk "dbF" "dbB") "C" "T" RequestType.feature
            (fun _ => Except.ok [Msg.mk "u1" "dark mode"])
            (Except.ok "Alice") (Except.ok (some "general")) (fun _ => Except.ok "Bob")
            (fun n => if n ≤ 2 then Except.error (JsError.mk none "boom")
                      else Except.ok ()) := by
  have h := (create_retry_and_exactly_once (BotConfig.mk "dbF" "dbB") "C" "T"
    RequestType.feature
    (fun _ => Except.ok [Msg.mk "u1" "dark mode"])
    (Except.ok "Alice") (Except.ok (some "general")) (fun _ => Except.ok "Bob")
    (fun n => if n ≤ 2 then Except.error (JsError.mk none "boom") else Except.ok ())).2.2
    (Msg.mk "u1" "dark mode") [] "Alice" (some "general")
    (JsError.mk none "boom") (JsError.mk none "boom")
    rfl rfl rfl (by decide) rfl rfl rfl
  exact ⟨h.1, h.2.2⟩

/-- C10: every status value the system writes to the record store is a
member of the written record's category enumeration — the update path
writes only the canonically-cased member found during validation, and the
create path writes only the category's initial (first-listed) status. -/
theorem written_status_in_enumeration (cfg : BotConfig) (channel threadTs : String)
    (rt : RequestType) (q ns : String)
    (qr : Except JsError (List Page)) (ur : Except JsError Unit)
    (fetchSched : Nat → Except JsError (List Msg))
    (reqName : Except JsError String)
    (chName : Except JsError (Option String))
    (uName : String → Except JsError String)
    (outcome : Nat → Except JsError Unit) :
    (∀ pid s, Effect.notionUpdateStatus pid s ∈
        handleUpdateCommand cfg channel threadTs rt q ns qr ur →
      s ∈ validStatuses rt)
    ∧ (∀ db t s b ok, Effect.notionCreate db t s b ok ∈
        handleCreateCommand cfg channel threadTs rt fetchSched reqName chName uName
          outcome →
      s ∈ validStatuses rt) := by
  constructor
  · intro pid s hmem
    by_cases hdb : databaseIds cfg rt = ""
    · simp only [handleUpdateCommand] at hmem
      rw [if_pos hdb] at hmem
      simp at hmem
    · cases hfind : (validStatuses rt).find? (fun s2 => lowerStr s2 == lowerStr ns) with
      | none =>
        simp only [handleUpdateCommand] at hmem
        rw [if_neg hdb, hfind] at hmem
        simp at hmem
      | some mtch =>
        have hm : mtch ∈ validStatuses rt := List.mem_of_find?_eq_some hfind
        simp only [handleUpdateCommand] at hmem
        rw [if_neg hdb, hfind] at hmem
        cases qr with
        | error e => simp at hmem
        | ok results =>
          cases results with
          | nil => simp at hmem
          | cons item tl =>
            cases tl with
            | nil =>
              cases ur with
              | error e =>
                simp at hmem
                obtain ⟨-, hs⟩ := hmem
                subst hs
                exact hm
              | ok _ =>
                simp at hmem
                obtain ⟨-, hs⟩ := hmem
                subst hs
                exact hm
            | cons b2 tl2 => simp at hmem
  · intro db t s b ok hmem
    simp only [handleCreateCommand] at hmem
    cases hf : fetchSched 1 with
    | error e => rw [hf] at hmem; simp at hmem
    | ok msgs =>
      rw [hf] at hmem
      cases msgs with
      | nil => simp at hmem
      | cons m0 tms =>
        cases reqName with
        | error e => simp at hmem
        | ok rn =>
          cases chName with
          | error e => simp at hmem
          | ok cn =>
            by_cases hdb : databaseIds cfg rt = ""
            · simp only [if_pos hdb] at hmem
              simp at hmem
            · simp only [if_neg hdb] at hmem
              rcases hl : createRetryLoop outcome 0 3 with ⟨flags, res⟩
              rw [hl] at hmem
              have hs : s = (if rt = RequestType.bd
                  then (validStatuses RequestType.bd).getD 0 ""
                  else (validStatuses RequestType.feature).getD 0 "") := by
                cases res with
                | error e =>
                  simp only [List.mem_cons, List.mem_append,
                    List.mem_singleton] at hmem
                  rcases hmem with h | h | h
                  · simp at h
                  · exact createMap_mem_status _ _ _ _ _ _ _ _ _ _ h
                  · simp at h
                | ok _ =>
                  simp only [List.mem_cons, List.mem_append,
                    List.mem_singleton] at hmem
                  rcases hmem with h | h | h
                  · simp at h
                  · exact createMap_mem_status _ _ _ _ _ _ _ _ _ _ h
                  · simp at h
              rw [hs]
              cases rt with
              | feature => simp [validStatuses]
              | bd => simp [validStatuses]
/-- C10 witness: the concrete single-match update writes "Completed",
which is a member of the feature enumeration. -/
theorem written_status_in_enumeration_witness :
    "Completed" ∈ validStatuses RequestType.feature :=
  (written_status_in_enumeration (BotConfig.mk "dbF" "dbB") "C" "T" RequestType.feature
    "foo" "Completed"
    (Except.ok [Page.mk "p1" (some "Foo widget") (some "New") none none []])
    (Except.ok ())
    (fun _ => Except.ok [Msg.mk "u1" "x"]) (Except.ok "Alice") (Except.ok (some "g"))
    (fun _ => Except.ok "Bob") (fun _ => Except.ok ())).1 "p1" "Completed" (by decide)

end FeatureBot
